import Mathlib

/-!
Formal model of the OpenOCD bitbang debug-probe driver
(src/jtag/drivers/bitbang.c of this repository).

The development shallowly embeds the C code: machine integers are Nat with
explicit truncation where the C code truncates, byte buffers are functions
from byte index to byte value, transport side effects are explicit event
traces, and the blocking serial reads are driven by an explicit list of
response bytes (an empty remainder models indefinite blocking).
-/

/-! ## Byte and hex helpers (macros GET_UPPER_HEX, GET_LOWER_HEX, HEX_TO_INT) -/

/-- Model of GET_UPPER_HEX(x): ASCII hex digit of the upper nibble of x.
C: ((((x) >> 4) & 0x0F) > 9 ? ((((x) >> 4) & 0x0F) - 10 + A) : ((((x) >> 4) & 0x0F) + Zero)). -/
def hexUpper (x : Nat) : Nat :=
  if x / 16 % 16 > 9 then x / 16 % 16 - 10 + 65 else x / 16 % 16 + 48

/-- Model of GET_LOWER_HEX(x): ASCII hex digit of the lower nibble of x. -/
def hexLower (x : Nat) : Nat :=
  if x % 16 > 9 then x % 16 - 10 + 65 else x % 16 + 48

/-- Model of HEX_TO_INT(x): value of an ASCII hex digit (digits and upper-case letters). -/
def hexToInt (x : Nat) : Nat :=
  if x ≥ 65 then x - 65 + 10 else x - 48

/-- Model of DIV_ROUND_UP from the OpenOCD headers: ceiling division. -/
def DIV_ROUND_UP (m n : Nat) : Nat := (m + n - 1) / n

/-- Modelled from the spec: parity_u32 (external helper from the OpenOCD core,
not part of src/): the XOR of the 32 low bits of a word, used as the SWD
parity over a 32-bit value. -/
def parity_u32 (x : Nat) : Nat :=
  ((List.range 32).map (fun i => x / 2 ^ i % 2)).sum % 2

/-! ## Bit access into byte buffers

The C code addresses a uint8_t buffer one bit at a time through the pattern
bytec = i/8, bcval = 1 << (i % 8); a buffer is modelled as a function from
byte index to byte value. -/

/-- Bit i of a byte buffer: bit (i % 8) of byte (i / 8). -/
def bufBit (buf : Nat → Nat) (i : Nat) : Bool :=
  Nat.testBit (buf (i / 8)) (i % 8)

/-- Single-bit store into a byte buffer, exactly as the C source does it:
set is buf[i/8] |= (1 << (i%8)); clear is buf[i/8] &= ~(1 << (i%8)), where
the store into a uint8_t truncates the mask to 0xFF ^ (1 << (i%8)). -/
def bufSetBit (buf : Nat → Nat) (i : Nat) (v : Bool) : Nat → Nat :=
  fun j =>
    if j = i / 8 then
      if v then buf (i / 8) ||| 2 ^ (i % 8)
      else buf (i / 8) &&& (255 ^^^ 2 ^ (i % 8))
    else buf j

theorem testBit_255 (m : Nat) : Nat.testBit 255 m = decide (m < 8) := by
  have h : (255 : Nat) = 2 ^ 8 - 1 := by norm_num
  rw [h, Nat.testBit_two_pow_sub_one]

theorem bufBit_bufSetBit_self (buf : Nat → Nat) (i : Nat) (v : Bool) :
    bufBit (bufSetBit buf i v) i = v := by
  have h8 : i % 8 < 8 := Nat.mod_lt i (by norm_num)
  unfold bufBit bufSetBit
  cases v with
  | true =>
    simp [Nat.testBit_or, Nat.testBit_two_pow_self]
  | false =>
    simp [Nat.testBit_and, Nat.testBit_xor, Nat.testBit_two_pow_self, testBit_255, h8]

theorem bufBit_bufSetBit_ne (buf : Nat → Nat) (i j : Nat) (v : Bool) (hne : j ≠ i) :
    bufBit (bufSetBit buf i v) j = bufBit buf j := by
  unfold bufBit bufSetBit
  by_cases hb : j / 8 = i / 8
  · have hbit : j % 8 ≠ i % 8 := by
      intro hm
      exact hne (by omega)
    have h8 : j % 8 < 8 := Nat.mod_lt j (by norm_num)
    rw [hb]
    cases v with
    | true =>
      simp [Nat.testBit_or, Nat.testBit_two_pow_of_ne (Ne.symm hbit)]
    | false =>
      simp [Nat.testBit_and, Nat.testBit_xor, testBit_255,
        Nat.testBit_two_pow_of_ne (Ne.symm hbit), h8]
  · simp [hb]

/-! ## TAP state machine data model -/

/-- The 16 IEEE 1149.1 TAP states (tap_state_t of the OpenOCD core). -/
inductive TapState where
  | RESET | IDLE
  | DRSELECT | DRCAPTURE | DRSHIFT | DREXIT1 | DRPAUSE | DREXIT2 | DRUPDATE
  | IRSELECT | IRCAPTURE | IRSHIFT | IREXIT1 | IRPAUSE | IREXIT2 | IRUPDATE
  deriving DecidableEq, Repr

/-- Modelled from the spec: tap_is_state_stable of the external TAP oracle
(the TAP state table is out of scope of src/): the six states in which the
TAP can stay with a constant TMS level. -/
def tap_is_state_stable : TapState → Bool
  | TapState.RESET => true
  | TapState.IDLE => true
  | TapState.DRSHIFT => true
  | TapState.DRPAUSE => true
  | TapState.IRSHIFT => true
  | TapState.IRPAUSE => true
  | _ => false

/-- Modelled from the spec: the external TapStateOracle interface.
tmsPath and tmsPathLen model tap_get_tms_path and tap_get_tms_path_len;
transition models tap_state_transition for a given TMS edge. -/
structure TapStateOracle where
  tmsPath : TapState → TapState → Nat
  tmsPathLen : TapState → TapState → Nat
  transition : TapState → Bool → TapState

/-- One electrical event of the BitTransport: a write of the TCK, TMS and TDI
lines, a sampled TDO read, or a reset-line write. -/
inductive BbEv where
  | w (tck tms tdi : Bool)
  | r (v : Bool)
  | rst (trst srst : Bool)
  deriving DecidableEq, Repr

/-- Process-wide driver state: whether bitbang_interface is non-null, the
RESET_SRST_PULLS_TRST bit of the reset configuration, and the session TAP
position (tap_get_state / tap_get_end_state). -/
structure JtagState where
  iface : Bool
  srstPullsTrst : Bool
  cur : TapState
  endSt : TapState
  deriving DecidableEq, Repr

/-! ## TapDriver (bitbang_end_state, bitbang_state_move, ...) -/

/-- Model of bitbang_end_state: record the end state if stable, else a
fatal contract error (exit(-1)), modelled as none. -/
def bitbang_end_state (s : JtagState) (st : TapState) : Option JtagState :=
  if tap_is_state_stable st then some { s with endSt := st } else none

/-- The TMS pulse pairs of the bitbang_state_move loop: for each index i of
idxs, a falling-edge write and a rising-edge write carrying bit i of
tms_scan, with TDI fixed at 0. -/
def tmsPulses (tms_scan : Nat) (idxs : List Nat) : List BbEv :=
  idxs.flatMap fun i =>
    [BbEv.w false (Nat.testBit tms_scan i) false, BbEv.w true (Nat.testBit tms_scan i) false]

/-- Final value of the C loop variable tms after the bitbang_state_move loop:
bit (tms_count - 1) of the scan if any iteration ran, else the initial 0. -/
def finalTms (tms_scan tms_count skip : Nat) : Bool :=
  if skip < tms_count then Nat.testBit tms_scan (tms_count - 1) else false

/-- Model of bitbang_state_move: replay path bits [skip..tms_count) as
TCK-low/TCK-high pulses with TDI 0, then a trailing CLOCK_IDLE() (= 0) write,
then set current state to the end state. -/
def bitbang_state_move (o : TapStateOracle) (s : JtagState) (skip : Nat) :
    JtagState × List BbEv :=
  let tms_scan := o.tmsPath s.cur s.endSt
  let tms_count := o.tmsPathLen s.cur s.endSt
  ({ s with cur := s.endSt },
   tmsPulses tms_scan (List.range' skip (tms_count - skip)) ++
     [BbEv.w false (finalTms tms_scan tms_count skip) false])

/-- Model of bitbang_execute_tms: clock out num_bits TMS bits taken from the
bit buffer (bit i is bit i%8 of byte i/8), with a trailing CLOCK_IDLE()
write carrying the last TMS value; always returns ERROR_OK. -/
def bitbang_execute_tms (bits : Nat → Nat) (num_bits : Nat) : List BbEv :=
  ((List.range num_bits).flatMap fun i =>
    [BbEv.w false (bufBit bits i) false, BbEv.w true (bufBit bits i) false]) ++
    [BbEv.w false (if 0 < num_bits then bufBit bits (num_bits - 1) else false) false]

/-- Loop of bitbang_path_move: for each requested state, pick the TMS edge
whose oracle transition matches it (fatal, i.e. none, if neither does), clock
one pulse, and advance the current state.  Returns the final state, the final
TMS value and the event trace. -/
def pathMoveLoop (o : TapStateOracle) : List TapState → TapState → Bool →
    Option (TapState × Bool × List BbEv)
  | [], cur, tms => some (cur, tms, [])
  | st :: rest, cur, _ =>
    if o.transition cur false = st then
      (pathMoveLoop o rest st false).map fun p =>
        (p.1, p.2.1, [BbEv.w false false false, BbEv.w true false false] ++ p.2.2)
    else if o.transition cur true = st then
      (pathMoveLoop o rest st true).map fun p =>
        (p.1, p.2.1, [BbEv.w false true false, BbEv.w true true false] ++ p.2.2)
    else none

/-- Model of bitbang_path_move: walk the supplied path, then a trailing
CLOCK_IDLE() write, then set the end state to the reached state. -/
def bitbang_path_move (o : TapStateOracle) (s : JtagState) (path : List TapState) :
    Option (JtagState × List BbEv) :=
  (pathMoveLoop o path s.cur false).map fun p =>
    ({ s with cur := p.1, endSt := p.1 }, p.2.2 ++ [BbEv.w false p.2.1 false])

/-- Model of bitbang_runtest: move to IDLE if not there, clock num_cycles
cycles with TMS 0 plus a trailing CLOCK_IDLE() write, then restore the saved
end state and move there if different. -/
def bitbang_runtest (o : TapStateOracle) (s : JtagState) (num_cycles : Nat) :
    Option (JtagState × List BbEv) :=
  let saved := s.endSt
  let step1 : Option (JtagState × List BbEv) :=
    if s.cur ≠ TapState.IDLE then
      (bitbang_end_state s TapState.IDLE).map fun s1 => bitbang_state_move o s1 0
    else some (s, [])
  step1.bind fun p1 =>
    let cyc := ((List.range num_cycles).flatMap fun _ =>
        [BbEv.w false false false, BbEv.w true false false]) ++ [BbEv.w false false false]
    (bitbang_end_state p1.1 saved).map fun s2 =>
      if s2.cur ≠ s2.endSt then
        let p3 := bitbang_state_move o s2 0
        (p3.1, p1.2 ++ cyc ++ p3.2)
      else (s2, p1.2 ++ cyc)

/-- Model of bitbang_stableclocks: num_cycles rising/falling pulse pairs with
TMS 1 in RESET and 0 elsewhere; no state change and no trailing write. -/
def bitbang_stableclocks (s : JtagState) (num_cycles : Nat) : List BbEv :=
  (List.range num_cycles).flatMap fun _ =>
    [BbEv.w true (s.cur = TapState.RESET) false,
     BbEv.w false (s.cur = TapState.RESET) false]

/-! ## IR/DR shifting (bitbang_scan) -/

/-- The scan direction (enum scan_type of the OpenOCD core). -/
inductive ScanType where
  | scanIn | scanOut | scanIO
  deriving DecidableEq, Repr

/-- Loop body of bitbang_scan, recursing over the remaining bit count n with
current bit index bit_cnt.  tdo gives the TDO level sampled at each bit
index.  Per bit: TMS is 1 exactly on the last bit, TDI comes from the buffer
unless the scan is input-only (SCAN_IN), TDO is sampled between the falling
and the rising TCK write whenever the scan is not output-only (SCAN_OUT),
and the sampled bit is stored back at the same bit index. -/
def scanLoop (stype : ScanType) (tdo : Nat → Bool) (scan_size : Nat) :
    Nat → Nat → (Nat → Nat) → ((Nat → Nat) × List BbEv)
  | _, 0, buffer => (buffer, [])
  | bit_cnt, n + 1, buffer =>
    let tms : Bool := bit_cnt = scan_size - 1
    let tdi : Bool := decide (stype ≠ ScanType.scanIn) && bufBit buffer bit_cnt
    let sampled := tdo bit_cnt
    let events := [BbEv.w false tms tdi] ++
      (if stype ≠ ScanType.scanOut then [BbEv.r sampled] else []) ++
      [BbEv.w true tms tdi]
    let buffer2 := if stype ≠ ScanType.scanOut then bufSetBit buffer bit_cnt sampled
      else buffer
    let rest := scanLoop stype tdo scan_size (bit_cnt + 1) n buffer2
    (rest.1, events ++ rest.2)

/-- Model of bitbang_scan: position the TAP in the matching shift state if
not already there (restoring the saved end state), run the shift loop, and
if the (unchanged) current state differs from the end state, move there
skipping the first path bit. -/
def bitbang_scan (o : TapStateOracle) (s : JtagState) (ir_scan : Bool)
    (stype : ScanType) (buffer : Nat → Nat) (scan_size : Nat) (tdo : Nat → Bool) :
    Option (JtagState × (Nat → Nat) × List BbEv) :=
  let saved := s.endSt
  let pre : Option (JtagState × List BbEv) :=
    if ¬((¬ir_scan ∧ s.cur = TapState.DRSHIFT) ∨ (ir_scan ∧ s.cur = TapState.IRSHIFT)) then
      (bitbang_end_state s (if ir_scan then TapState.IRSHIFT else TapState.DRSHIFT)).bind
        fun s1 =>
          let p := bitbang_state_move o s1 0
          (bitbang_end_state p.1 saved).map fun s2 => (s2, p.2)
    else some (s, [])
  pre.map fun p1 =>
    let lp := scanLoop stype tdo scan_size 0 scan_size buffer
    if p1.1.cur ≠ p1.1.endSt then
      let p2 := bitbang_state_move o p1.1 1
      (p2.1, lp.1, p1.2 ++ lp.2 ++ p2.2)
    else (p1.1, lp.1, p1.2 ++ lp.2)

/-! ## QueueExecutor (bitbang_execute_queue) -/

/-- Status codes of the executor.  ERROR_OK is 0 as in the OpenOCD core. -/
def ERROR_OK : Int := 0

/-- Modelled from the spec: ERROR_JTAG_QUEUE_FAILED, the distinct
"queue failed" status from the external jtag headers (not part of src/). -/
def ERROR_JTAG_QUEUE_FAILED : Int := -104

/-- Modelled from the spec: ERROR_FAIL, the generic failure status from the
external headers (not part of src/). -/
def ERROR_FAIL : Int := -4

/-- One queued command (struct jtag_command).  The externally produced parts
are carried as fields: the scan command carries the buffer built by
jtag_build_buffer, its bit count, the scan type computed by jtag_scan_type,
the TDO levels the target drives, and the verdict of the external
jtag_read_buffer post-processing validation (read_ok). -/
inductive JtagCommand where
  | reset (trst srst : Bool)
  | runtest (num_cycles : Nat) (end_state : TapState)
  | stableclocks (num_cycles : Nat)
  | statemove (end_state : TapState)
  | pathmove (path : List TapState)
  | scan (ir_scan : Bool) (stype : ScanType) (end_state : TapState)
      (buffer : Nat → Nat) (scan_size : Nat) (tdo : Nat → Bool) (read_ok : Bool)
  | sleep (us : Nat)
  | tms (bits : Nat → Nat) (num_bits : Nat)

/-- Command loop of bitbang_execute_queue: dispatch each command in order,
threading the running retval; none models the fatal contract errors
(invalid end state, invalid path edge) that exit the process. -/
def execQueueLoop (o : TapStateOracle) : List JtagCommand → JtagState → Int →
    Option (Int × JtagState × List BbEv)
  | [], s, retval => some (retval, s, [])
  | c :: rest, s, retval =>
    let step : Option (Int × JtagState × List BbEv) :=
      match c with
      | JtagCommand.reset trst srst =>
        let s1 := if trst ∨ (srst ∧ s.srstPullsTrst) then { s with cur := TapState.RESET }
          else s
        some (retval, s1, [BbEv.rst trst srst])
      | JtagCommand.runtest n es =>
        (bitbang_end_state s es).bind fun s1 =>
          (bitbang_runtest o s1 n).map fun p => (retval, p.1, p.2)
      | JtagCommand.stableclocks n =>
        some (retval, s, bitbang_stableclocks s n)
      | JtagCommand.statemove es =>
        (bitbang_end_state s es).map fun s1 =>
          let p := bitbang_state_move o s1 0
          (retval, p.1, p.2)
      | JtagCommand.pathmove path =>
        (bitbang_path_move o s path).map fun p => (retval, p.1, p.2)
      | JtagCommand.scan ir stype es buffer scan_size tdo read_ok =>
        (bitbang_end_state s es).bind fun s1 =>
          (bitbang_scan o s1 ir stype buffer scan_size tdo).map fun p =>
            (if read_ok then retval else ERROR_JTAG_QUEUE_FAILED, p.1, p.2.2)
      | JtagCommand.sleep _ =>
        some (retval, s, [])
      | JtagCommand.tms bits num_bits =>
        some (ERROR_OK, s, bitbang_execute_tms bits num_bits)
    step.bind fun p =>
      (execQueueLoop o rest p.2.1 p.1).map fun q => (q.1, q.2.1, p.2.2 ++ q.2.2)

/-- Model of bitbang_execute_queue: fatal (none) when the bitbang interface
is not initialized, otherwise drain the whole queue accumulating the
aggregate status, starting from ERROR_OK. -/
def bitbang_execute_queue (o : TapStateOracle) (s : JtagState)
    (queue : List JtagCommand) : Option (Int × JtagState × List BbEv) :=
  if ¬s.iface then none
  else execQueueLoop o queue s ERROR_OK

/-! ## SwdTransport (bitbang_exchange over the serial byte stream)

The serial stream is modelled explicitly: the bytes the driver writes become
SerEv.wr events, the usleep(10000) becomes a SerEv.delay event, and the
blocking read loop consumes bytes from a supplied response list one byte per
read call; none models a read loop that never reaches its termination
condition (indefinite blocking on the stream). -/

/-- One observable action on the serial byte stream. -/
inductive SerEv where
  | wr (b : Nat)
  | delay
  deriving DecidableEq, Repr

/-- The blocking read-and-assemble loop shared by both directions of
bitbang_exchange: consume response hex digits, assembling two digits into one
byte of local_buf (upper nibble first), and return once data_cnt / 2 equals
data_len.  local_buf is modelled as the list of assembled bytes; the result
is (local_buf, digits consumed, remaining response stream). -/
def exchLoop (data_len : Nat) : List Nat → Nat → List Nat →
    Option (List Nat × Nat × List Nat)
  | [], _, _ => none
  | d :: rest, data_cnt, lb =>
    let lb2 := if data_cnt % 2 = 0 then lb ++ [16 * hexToInt d]
      else lb.set (data_cnt / 2) (lb.getD (data_cnt / 2) 0 ||| hexToInt d)
    if (data_cnt + 1) / 2 = data_len then some (lb2, data_cnt + 1, rest)
    else exchLoop data_len rest (data_cnt + 1) lb2

/-- Bit i of the assembled local_buf byte list. -/
def lbBit (lb : List Nat) (i : Nat) : Bool :=
  Nat.testBit (lb.getD (i / 8) 0) (i % 8)

/-- The write-back loop of the read path of bitbang_exchange: for each bit
index in [offset, offset + bit_cnt), copy bit i of local_buf into bit i of
the caller's buffer (set when 1, clear when 0), recursing over the remaining
count n. -/
def copyBits (lb : List Nat) : (Nat → Nat) → Nat → Nat → (Nat → Nat)
  | buf, _, 0 => buf
  | buf, i, n + 1 => copyBits lb (bufSetBit buf i (lbBit lb i)) (i + 1) n

/-- The 7-byte request header of bitbang_exchange: opcode 0xF1 (read) or
0xF0 (write), two hex digits of bit_cnt, two of offset, and two of data_len,
the latter replaced by the literal digits 0 0 when no buffer is supplied. -/
def exchHeader (rnw : Bool) (hasBuf : Bool) (offset bit_cnt : Nat) : List Nat :=
  let data_len := DIV_ROUND_UP (bit_cnt + offset) 8
  [if rnw then 0xF1 else 0xF0, hexUpper bit_cnt, hexLower bit_cnt,
   hexUpper offset, hexLower offset] ++
  (if hasBuf then [hexUpper data_len, hexLower data_len] else [48, 48])

/-- Model of bitbang_exchange.  Arguments: direction rnw, the optional
caller buffer, bit offset, bit count, and the response byte stream.  Result:
the serial event trace, the number of response digits consumed, the
resulting caller buffer, and the unconsumed response stream (none when the
read loop would block forever). -/
def bitbang_exchange (rnw : Bool) (buf : Option (Nat → Nat))
    (offset bit_cnt : Nat) (resp : List Nat) :
    Option (List SerEv × Nat × Option (Nat → Nat) × List Nat) :=
  let data_len := DIV_ROUND_UP (bit_cnt + offset) 8
  if rnw then
    match buf with
    | none =>
      some ((exchHeader true false offset bit_cnt).map SerEv.wr ++ [SerEv.delay],
        0, none, resp)
    | some b =>
      (exchLoop data_len resp 0 []).map fun p =>
        ((exchHeader true true offset bit_cnt).map SerEv.wr,
         p.2.1, some (copyBits p.1 b offset bit_cnt), p.2.2)
  else
    let payload : List Nat := match buf with
      | some b => (List.range data_len).flatMap fun i => [hexUpper (b i), hexLower (b i)]
      | none => []
    (exchLoop 1 resp 0 []).map fun p =>
      ((exchHeader false buf.isSome offset bit_cnt ++ payload).map SerEv.wr,
       p.2.1, buf, p.2.2)

/-- Trace component of a bitbang_exchange result. -/
def exTrace (x : Option (List SerEv × Nat × Option (Nat → Nat) × List Nat)) :
    Option (List SerEv) := x.map fun p => p.1

/-- Consumed-digit count of a bitbang_exchange result. -/
def exConsumed (x : Option (List SerEv × Nat × Option (Nat → Nat) × List Nat)) :
    Option Nat := x.map fun p => p.2.1

/-- Unconsumed-response component of a bitbang_exchange result. -/
def exRest (x : Option (List SerEv × Nat × Option (Nat → Nat) × List Nat)) :
    Option (List Nat) := x.map fun p => p.2.2.2

/-- Bit j of the resulting caller buffer of a bitbang_exchange result. -/
def exBufBit (x : Option (List SerEv × Nat × Option (Nat → Nat) × List Nat))
    (j : Nat) : Option Bool :=
  x.bind fun p => p.2.2.1.map fun b => bufBit b j

/-! ## SwdEngine (bitbang_swd_read_reg, bitbang_swd_write_reg, run queue)

The engine is modelled at the granularity of its calls into the transport:
each call to bitbang_exchange or to the SWDIO drive toggle becomes one
SwdAct event.  The response environment env supplies, for each read-exchange
with a capture buffer (in order), the bit window the transport would
assemble into the buffer; write-exchanges and the buffer-less delay
exchanges deliver no data to the engine and consume nothing from env.
The unbounded for(;;) retry loops are driven by an explicit fuel argument;
none models an execution that exhausts fuel or blocks on the stream. -/

/-- Modelled from the spec: command-byte framing bits from the external
swd.h (not part of src/). -/
def SWD_CMD_START : Nat := 1

/-- Modelled from the spec: the AP-not-DP bit of the SWD command byte. -/
def SWD_CMD_APnDP : Nat := 2

/-- Modelled from the spec: the read-not-write bit of the SWD command byte. -/
def SWD_CMD_RnW : Nat := 4

/-- Modelled from the spec: the three SWD acknowledge codes of swd.h. -/
def SWD_ACK_OK : Nat := 1

/-- Modelled from the spec: the WAIT acknowledge code. -/
def SWD_ACK_WAIT : Nat := 2

/-- Modelled from the spec: the FAULT acknowledge code. -/
def SWD_ACK_FAULT : Nat := 4

/-- Modelled from the spec: the DP ABORT register address (external header). -/
def DP_ABORT : Nat := 0

/-- Modelled from the spec: STKCMPCLR | STKERRCLR | WDERRCLR | ORUNERRCLR,
the fixed clear-sticky-errors value written to the abort register. -/
def SWD_ABORT_CLEAR : Nat := 2 ||| 4 ||| 8 ||| 16

/-- Modelled from the spec: swd_cmd of the external swd.h, building the SWD
command byte from APnDP, RnW and the register address, with a parity bit. -/
def swd_cmd (is_read is_ap : Bool) (regnum : Nat) : Nat :=
  let c := (if is_ap then SWD_CMD_APnDP else 0) |||
    (if is_read then SWD_CMD_RnW else 0) ||| ((regnum &&& 12) <<< 1)
  if parity_u32 c = 1 then c ||| 32 else c

/-- Process-wide SWD engine state: the shared error latch queued_retval and
whether bitbang_swd_init has opened the serial transport (swd_mode / fd). -/
structure SwdState where
  queued_retval : Int
  fdInit : Bool
  deriving DecidableEq, Repr

/-- One engine-level transport action: a write-exchange carrying payload
bits, a read-exchange delivering the bit window resp, a buffer-less
delay-clocks read-exchange, or an SWDIO drive toggle. -/
inductive SwdAct where
  | exchW (payload : Nat) (offset bitCnt : Nat)
  | exchR (offset bitCnt : Nat) (resp : Nat)
  | exchDelay (bitCnt : Nat)
  | drive (out : Bool)
  deriving DecidableEq, Repr

/-- The for(;;) loop of bitbang_swd_write_reg.  Per iteration: transmit the
framed command byte, release the line, exchange the 5-bit trn+ack window
(consuming one env entry), re-assert drive, transmit the 33-bit data+parity
window, then decode the ACK: OK returns (with an AP delay-clocks exchange for
AP accesses), WAIT performs the recursive clear-sticky-errors write
transaction (the latch check and abort-register write transaction of
swd_clear_sticky_errors / bitbang_swd_write_reg, inlined here) and retries,
FAULT and unrecognized codes latch the code and return. -/
def writeRegLoop : Nat → SwdState → Nat → Nat → Nat → List Nat →
    Option (SwdState × List SwdAct × List Nat)
  | 0, _, _, _, _, _ => none
  | _ + 1, _, _, _, _, [] => none
  | fuel + 1, s, cmd, value, ap_delay_clk, w :: env1 =>
    let cmd2 := cmd ||| SWD_CMD_START ||| 128
    let acts := [SwdAct.exchW cmd2 0 8, SwdAct.drive false, SwdAct.exchR 0 5 w,
      SwdAct.drive true,
      SwdAct.exchW (value % 2 ^ 32 + parity_u32 value * 2 ^ 32) 5 33]
    let ack := w / 2 % 8
    if ack = SWD_ACK_OK then
      if cmd &&& SWD_CMD_APnDP ≠ 0 then
        some (s, acts ++ [SwdAct.exchDelay ap_delay_clk], env1)
      else some (s, acts, env1)
    else if ack = SWD_ACK_WAIT then
      match (if s.queued_retval ≠ ERROR_OK then some (s, ([] : List SwdAct), env1)
        else writeRegLoop fuel s (swd_cmd false false DP_ABORT) SWD_ABORT_CLEAR 0 env1) with
      | none => none
      | some q =>
        match writeRegLoop fuel q.1 cmd value ap_delay_clk q.2.2 with
        | none => none
        | some r => some (r.1, acts ++ q.2.1 ++ r.2.1, r.2.2)
    else if ack = SWD_ACK_FAULT then
      some ({ s with queued_retval := (ack : Int) }, acts, env1)
    else
      some ({ s with queued_retval := (ack : Int) }, acts, env1)

/-- Model of bitbang_swd_write_reg: skip as a no-op when the shared error
latch is set, otherwise run the transaction loop. -/
def bitbang_swd_write_reg (fuel : Nat) (s : SwdState) (cmd value ap_delay_clk : Nat)
    (env : List Nat) : Option (SwdState × List SwdAct × List Nat) :=
  if s.queued_retval ≠ ERROR_OK then some (s, [], env)
  else writeRegLoop fuel s cmd value ap_delay_clk env

/-- Model of swd_clear_sticky_errors: a write transaction to the DP ABORT
register with the fixed clear value. -/
def swd_clear_sticky_errors (fuel : Nat) (s : SwdState) (env : List Nat) :
    Option (SwdState × List SwdAct × List Nat) :=
  bitbang_swd_write_reg fuel s (swd_cmd false false DP_ABORT) SWD_ABORT_CLEAR 0 env

/-- The for(;;) loop of bitbang_swd_read_reg.  Per iteration: transmit the
framed command byte, release the line, exchange the 38-bit
trn+ack+data+parity+trn window (consuming one env entry), re-assert drive,
then decode: OK checks the parity of the 32-bit data word against the
received parity bit (mismatch latches ERROR_FAIL and returns without storing),
stores the value and returns (with an AP delay-clocks exchange for AP
accesses); WAIT performs the clear-sticky-errors write transaction and
retries; FAULT and unrecognized codes latch the code and return. -/
def readRegLoop : Nat → SwdState → Nat → Nat → List Nat →
    Option (SwdState × Option Nat × List SwdAct × List Nat)
  | 0, _, _, _, _ => none
  | _ + 1, _, _, _, [] => none
  | fuel + 1, s, cmd, ap_delay_clk, w :: env1 =>
    let cmd2 := cmd ||| SWD_CMD_START ||| 128
    let acts := [SwdAct.exchW cmd2 0 8, SwdAct.drive false, SwdAct.exchR 0 38 w,
      SwdAct.drive true]
    let ack := w / 2 % 8
    let data := w / 16 % 2 ^ 32
    let parity := w / 2 ^ 36 % 2
    if ack = SWD_ACK_OK then
      if parity ≠ parity_u32 data then
        some ({ s with queued_retval := ERROR_FAIL }, none, acts, env1)
      else if cmd &&& SWD_CMD_APnDP ≠ 0 then
        some (s, some data, acts ++ [SwdAct.exchDelay ap_delay_clk], env1)
      else some (s, some data, acts, env1)
    else if ack = SWD_ACK_WAIT then
      match swd_clear_sticky_errors fuel s env1 with
      | none => none
      | some q =>
        match readRegLoop fuel q.1 cmd ap_delay_clk q.2.2 with
        | none => none
        | some r => some (r.1, r.2.1, acts ++ q.2.1 ++ r.2.2.1, r.2.2.2)
    else if ack = SWD_ACK_FAULT then
      some ({ s with queued_retval := (ack : Int) }, none, acts, env1)
    else
      some ({ s with queued_retval := (ack : Int) }, none, acts, env1)

/-- Model of bitbang_swd_read_reg: skip as a no-op when the shared error
latch is set, otherwise run the transaction loop.  The second component of a
result is the value stored through the caller's pointer (none when nothing
was stored). -/
def bitbang_swd_read_reg (fuel : Nat) (s : SwdState) (cmd ap_delay_clk : Nat)
    (env : List Nat) : Option (SwdState × Option Nat × List SwdAct × List Nat) :=
  if s.queued_retval ≠ ERROR_OK then some (s, none, [], env)
  else readRegLoop fuel s cmd ap_delay_clk env

/-- Model of bitbang_swd_run_queue: issue the 8-cycle idle exchange, return
the latched value and clear the latch. -/
def bitbang_swd_run_queue (s : SwdState) : Int × SwdState × List SwdAct :=
  (s.queued_retval, { s with queued_retval := ERROR_OK }, [SwdAct.exchDelay 8])

/-- State component of a read-transaction result. -/
def rrState (x : Option (SwdState × Option Nat × List SwdAct × List Nat)) :
    Option SwdState := x.map fun p => p.1

/-- Stored-value component of a read-transaction result. -/
def rrStored (x : Option (SwdState × Option Nat × List SwdAct × List Nat)) :
    Option (Option Nat) := x.map fun p => p.2.1

/-- Action-trace component of a read-transaction result. -/
def rrTrace (x : Option (SwdState × Option Nat × List SwdAct × List Nat)) :
    List SwdAct := x.elim [] fun p => p.2.2.1

/-- Unconsumed-environment component of a read-transaction result. -/
def rrRest (x : Option (SwdState × Option Nat × List SwdAct × List Nat)) :
    Option (List Nat) := x.map fun p => p.2.2.2

/-- Number of clear-sticky-errors command transmissions in a trace: the
write-exchanges carrying the framed DP ABORT write command byte. -/
def countAbortWrites (tr : List SwdAct) : Nat :=
  tr.countP fun a =>
    decide (a = SwdAct.exchW (swd_cmd false false DP_ABORT ||| SWD_CMD_START ||| 128) 0 8)

/-- Number of read-transaction attempts in a trace: the 38-bit ack+data
read-exchanges. -/
def countReadAttempts (tr : List SwdAct) : Nat :=
  tr.countP fun a => match a with
    | SwdAct.exchR 0 38 _ => true
    | _ => false

/-! ## Concrete instances used by closed theorems -/

/-- A concrete TAP oracle for closed evaluations: empty TMS paths and
self-loop transitions. -/
def oracle0 : TapStateOracle := ⟨fun _ _ => 0, fun _ _ => 0, fun st _ => st⟩

/-! ## General lemmas -/

theorem parity_u32_lt (x : Nat) : parity_u32 x < 2 :=
  Nat.mod_lt _ (by norm_num)

/-! ## Claim C3: batch short-circuit on a latched error -/

/-- C3: once the shared error latch queued_retval holds a non-clear value,
every subsequent SWD register read or write returns immediately as a no-op,
performing no transport I/O and leaving the latch, the stored value and the
response stream unchanged; the run-queue operation returns the latched value
and clears the latch. -/
theorem swd_batch_short_circuit (fuel : Nat) (s : SwdState) (cmd value ap : Nat)
    (env : List Nat) (h : s.queued_retval ≠ ERROR_OK) :
    bitbang_swd_read_reg fuel s cmd ap env = some (s, none, [], env) ∧
    bitbang_swd_write_reg fuel s cmd value ap env = some (s, [], env) ∧
    (bitbang_swd_run_queue s).1 = s.queued_retval ∧
    (bitbang_swd_run_queue s).2.1.queued_retval = ERROR_OK := by
  refine ⟨?_, ?_, rfl, rfl⟩
  · simp [bitbang_swd_read_reg, h]
  · simp [bitbang_swd_write_reg, h]

/-- Witness for C3 at the concrete latched state queued_retval = 4. -/
theorem swd_batch_short_circuit_witness :
    ((4 : Int) ≠ ERROR_OK) ∧
    bitbang_swd_read_reg 5 ⟨4, true⟩ 7 0 [9] = some (⟨4, true⟩, none, [], [9]) ∧
    bitbang_swd_write_reg 5 ⟨4, true⟩ 7 3 0 [9] = some (⟨4, true⟩, [], [9]) :=
  ⟨by decide,
   (swd_batch_short_circuit 5 ⟨4, true⟩ 7 3 0 [9] (by decide)).1,
   (swd_batch_short_circuit 5 ⟨4, true⟩ 7 3 0 [9] (by decide)).2.1⟩

/-! ## Claim C7: parity mismatch on an OK read -/

/-- C7: an SWD register read acknowledged OK whose received parity bit does
not match the parity of the received 32-bit value latches ERROR_FAIL,
returns after that single attempt without retrying, and stores nothing into
the caller's output variable. -/
theorem swd_read_parity_fault (fuel : Nat) (s : SwdState) (cmd ap w : Nat)
    (rest : List Nat) (hq : s.queued_retval = ERROR_OK)
    (hack : w / 2 % 8 = SWD_ACK_OK)
    (hpar : w / 2 ^ 36 % 2 ≠ parity_u32 (w / 16 % 2 ^ 32)) :
    bitbang_swd_read_reg (fuel + 1) s cmd ap (w :: rest) =
      some ({ s with queued_retval := ERROR_FAIL }, none,
        [SwdAct.exchW (cmd ||| SWD_CMD_START ||| 128) 0 8, SwdAct.drive false,
         SwdAct.exchR 0 38 w, SwdAct.drive true], rest) := by
  simp only [bitbang_swd_read_reg, hq, readRegLoop, hack]
  simp
  intro hcontra
  exact absurd hcontra (by simpa using hpar)

/-- Witness for C7 at the response word 2 + 2^36: ACK is OK, the data word
is 0, the received parity bit is 1 while parity_u32 0 = 0. -/
theorem swd_read_parity_fault_witness :
    ((2 + 2 ^ 36) / 2 % 8 = SWD_ACK_OK) ∧
    ((2 + 2 ^ 36) / 2 ^ 36 % 2 ≠ parity_u32 ((2 + 2 ^ 36) / 16 % 2 ^ 32)) ∧
    bitbang_swd_read_reg 1 ⟨ERROR_OK, true⟩ 4 0 [2 + 2 ^ 36] =
      some (⟨ERROR_FAIL, true⟩, none,
        [SwdAct.exchW (4 ||| SWD_CMD_START ||| 128) 0 8, SwdAct.drive false,
         SwdAct.exchR 0 38 (2 + 2 ^ 36), SwdAct.drive true], []) :=
  ⟨by decide, by decide,
   swd_read_parity_fault 0 ⟨ERROR_OK, true⟩ 4 0 (2 + 2 ^ 36) [] rfl (by decide) (by decide)⟩

/-! ## Claim C9: SWD engine use before transport initialization -/

/-- Counterexample for C9: invoking the SWD register read with the transport
not initialized (fdInit = false) does not abort: the call returns normally
and performs transport I/O (a nonempty action trace). -/
theorem swd_uninit_counterexample :
    rrTrace (bitbang_swd_read_reg 1 ⟨ERROR_OK, false⟩ SWD_CMD_RnW 0 [2]) ≠ [] ∧
    (bitbang_swd_read_reg 1 ⟨ERROR_OK, false⟩ SWD_CMD_RnW 0 [2]).isSome = true := by
  constructor
  · decide
  · decide

/-- C9 (amended): no SWD engine operation checks transport initialization —
an SWD register read invoked with fdInit = false proceeds with its normal
transport I/O and completes; only the JTAG queue executor aborts immediately
when its bitbang interface is not initialized. -/
theorem swd_uninit_no_abort (fuel : Nat) (s : SwdState) (cmd ap w : Nat)
    (rest : List Nat) (o : TapStateOracle) (js : JtagState)
    (queue : List JtagCommand) (hfd : s.fdInit = false)
    (hq : s.queued_retval = ERROR_OK) (hack : w / 2 % 8 = SWD_ACK_OK)
    (hpar : w / 2 ^ 36 % 2 = parity_u32 (w / 16 % 2 ^ 32))
    (hdp : cmd &&& SWD_CMD_APnDP = 0) (hj : js.iface = false) :
    bitbang_swd_read_reg (fuel + 1) s cmd ap (w :: rest) =
      some (s, some (w / 16 % 2 ^ 32),
        [SwdAct.exchW (cmd ||| SWD_CMD_START ||| 128) 0 8, SwdAct.drive false,
         SwdAct.exchR 0 38 w, SwdAct.drive true], rest) ∧
    bitbang_execute_queue o js queue = none := by
  constructor
  · simp only [bitbang_swd_read_reg, hq, readRegLoop, hack]
    simp [hdp]
    exact (by simpa using hpar)
  · simp [bitbang_execute_queue, hj]

/-- Witness for C9 (amended) at a concrete uninitialized state. -/
theorem swd_uninit_no_abort_witness :
    bitbang_swd_read_reg 1 ⟨ERROR_OK, false⟩ 4 0 [2] =
      some (⟨ERROR_OK, false⟩, some 0,
        [SwdAct.exchW (4 ||| SWD_CMD_START ||| 128) 0 8, SwdAct.drive false,
         SwdAct.exchR 0 38 2, SwdAct.drive true], []) ∧
    bitbang_execute_queue oracle0 ⟨false, false, TapState.IDLE, TapState.IDLE⟩ [] = none := by
  have h := swd_uninit_no_abort 0 ⟨ERROR_OK, false⟩ 4 0 2 [] oracle0
    ⟨false, false, TapState.IDLE, TapState.IDLE⟩ [] rfl rfl (by decide) (by decide)
    (by decide) rfl
  exact ⟨h.1, h.2⟩

/-! ## Claim C2: response consumption of the write-exchange -/

/-- C2 (amended): a write-exchange with a payload buffer sends the 7-byte
header and the 2 per payload byte hex digits, then consumes response hex
digits until exactly 1 byte has been assembled — regardless of the payload
byte length — before returning, leaving the caller's buffer untouched. -/
theorem write_exchange_response_consumption (b : Nat → Nat) (off bc : Nat)
    (d1 d2 : Nat) (rest : List Nat) :
    bitbang_exchange false (some b) off bc (d1 :: d2 :: rest) =
      some ((exchHeader false true off bc ++
        ((List.range (DIV_ROUND_UP (bc + off) 8)).flatMap fun i =>
          [hexUpper (b i), hexLower (b i)])).map SerEv.wr,
        2, some b, rest) := by
  simp [bitbang_exchange, exchLoop]

/-- Counterexample for C2 as stated: with a 2-byte payload (bit count 16,
offset 0) the write-exchange consumes 2 response hex digits (1 assembled
byte), not 2 * paylen = 4. -/
theorem write_exchange_consume_counterexample :
    exConsumed (bitbang_exchange false (some fun _ => 0) 0 16 [48, 48, 48, 48]) =
      some 2 ∧
    2 * DIV_ROUND_UP (16 + 0) 8 = 4 ∧ (2 : Nat) ≠ 4 := by
  refine ⟨by decide, by decide, by decide⟩

/-! ## Claim C6: read-exchange request serialization -/

/-- The zero-padded ASCII hex digit of a nibble value, as the spec words the
wire format: digits 0-9 then upper-case A-F. -/
def specHexChar (v : Nat) : Nat := if v < 10 then 48 + v else 55 + v

/-- The two zero-padded ASCII hex digits of a byte value, upper nibble
first, as the spec words the wire format. -/
def specHexPair (x : Nat) : List Nat := [specHexChar (x / 16), specHexChar (x % 16)]

/-- The read-exchange request as the spec words it: 0xF1, then two hex
digits of the bit count, two of the bit offset and two of the payload byte
length. -/
def specReadHeader (b o p : Nat) : List Nat :=
  0xF1 :: (specHexPair b ++ specHexPair o ++ specHexPair p)

theorem hexUpper_spec (x : Nat) (hx : x < 256) : hexUpper x = specHexChar (x / 16) := by
  have h : x / 16 < 16 := by omega
  unfold hexUpper specHexChar
  rw [Nat.mod_eq_of_lt h]
  by_cases h9 : x / 16 > 9
  · rw [if_pos h9, if_neg (by omega)]
    omega
  · rw [if_neg h9, if_pos (by omega)]
    omega

theorem hexLower_spec (x : Nat) : hexLower x = specHexChar (x % 16) := by
  have h : x % 16 < 16 := Nat.mod_lt x (by norm_num)
  unfold hexLower specHexChar
  by_cases h9 : x % 16 > 9
  · rw [if_pos h9, if_neg (by omega)]
    omega
  · rw [if_neg h9, if_pos (by omega)]
    omega

/-- C6: the read-exchange request is exactly 0xF1 followed by the two
zero-padded ASCII hex digits of the bit count, of the bit offset, and of the
payload byte length; without a capture buffer the payload-length field is
the two digits 00 and the call performs the fixed delay and consumes no
response; with a capture buffer the payload-length field encodes
DIV_ROUND_UP (bit count + offset) 8. -/
theorem read_exchange_header_spec (b o : Nat) (resp : List Nat) (v : Nat → Nat)
    (lb : List Nat) (c : Nat) (rest : List Nat)
    (hb : b ≤ 255) (ho : o ≤ 255)
    (hsucc : exchLoop (DIV_ROUND_UP (b + o) 8) resp 0 [] = some (lb, c, rest)) :
    bitbang_exchange true none o b resp =
      some ((specReadHeader b o 0).map SerEv.wr ++ [SerEv.delay], 0, none, resp) ∧
    bitbang_exchange true (some v) o b resp =
      some ((specReadHeader b o (DIV_ROUND_UP (b + o) 8)).map SerEv.wr, c,
        some (copyBits lb v o b), rest) := by
  have hd : DIV_ROUND_UP (b + o) 8 < 256 := by
    unfold DIV_ROUND_UP
    omega
  have hb2 : b < 256 := by omega
  have ho2 : o < 256 := by omega
  constructor
  · simp [bitbang_exchange, exchHeader, specReadHeader, specHexPair,
      hexUpper_spec b hb2, hexLower_spec b, hexUpper_spec o ho2, hexLower_spec o,
      specHexChar]
  · simp [bitbang_exchange, exchHeader, specReadHeader, specHexPair,
      hexUpper_spec b hb2, hexLower_spec b, hexUpper_spec o ho2, hexLower_spec o,
      hexUpper_spec _ hd, hexLower_spec (DIV_ROUND_UP (b + o) 8), hsucc]

/-- Witness for C6: a 3-bit read-exchange with offset 2 serializes as 0xF1
followed by the digit bytes 0 3 0 2 0 0, with the bitcount field 03; with no
capture buffer the response is not read and a delay happens instead. -/
theorem read_exchange_header_spec_witness :
    bitbang_exchange true none 2 3 [48, 48] =
      some ((specReadHeader 3 2 0).map SerEv.wr ++ [SerEv.delay], 0, none, [48, 48]) ∧
    specReadHeader 3 2 0 = [0xF1, 48, 51, 48, 50, 48, 48] :=
  ⟨(read_exchange_header_spec 3 2 [48, 48] (fun _ => 0) [0] 2 [] (by decide) (by decide)
      (by decide)).1,
   by decide⟩

/-! ## Claim C10: frame property of the read-exchange write-back -/

theorem copyBits_frame (lb : List Nat) :
    ∀ (n : Nat) (buf : Nat → Nat) (i j : Nat),
      j < i ∨ i + n ≤ j → bufBit (copyBits lb buf i n) j = bufBit buf j := by
  intro n
  induction n with
  | zero => intro buf i j _; rfl
  | succ n ih =>
    intro buf i j h
    show bufBit (copyBits lb (bufSetBit buf i (lbBit lb i)) (i + 1) n) j = _
    rw [ih _ _ _ (by omega)]
    exact bufBit_bufSetBit_ne _ _ _ _ (by omega)

/-- C10: a read-exchange with a capture buffer only writes back the bits at
indices in [offset, offset + bit count) of the caller's buffer; every bit
outside that range keeps the value it had before the call. -/
theorem read_exchange_frame (b : Nat → Nat) (off cnt : Nat) (resp : List Nat)
    (lb : List Nat) (c : Nat) (rest : List Nat)
    (hsucc : exchLoop (DIV_ROUND_UP (cnt + off) 8) resp 0 [] = some (lb, c, rest)) :
    bitbang_exchange true (some b) off cnt resp =
      some ((exchHeader true true off cnt).map SerEv.wr, c,
        some (copyBits lb b off cnt), rest) ∧
    ∀ j, j < off ∨ off + cnt ≤ j → bufBit (copyBits lb b off cnt) j = bufBit b j := by
  constructor
  · simp [bitbang_exchange, hsucc]
  · intro j hj
    exact copyBits_frame lb cnt b off j hj

/-- Witness for C10: a 3-bit read at offset 2 with response digits F F sets
bits 2..4 and leaves bits 0 and 5 of an all-zero buffer unchanged. -/
theorem read_exchange_frame_witness :
    exchLoop (DIV_ROUND_UP (3 + 2) 8) [70, 70] 0 [] = some ([255], 2, []) ∧
    bufBit (copyBits [255] (fun _ => 0) 2 3) 0 = bufBit (fun _ => 0) 0 ∧
    bufBit (copyBits [255] (fun _ => 0) 2 3) 5 = bufBit (fun _ => 0) 5 ∧
    bufBit (copyBits [255] (fun _ => 0) 2 3) 2 = true := by
  refine ⟨by decide, ?_, ?_, by decide⟩
  · exact (read_exchange_frame (fun _ => 0) 2 3 [70, 70] [255] 2 [] (by decide)).2 0
      (by omega)
  · exact (read_exchange_frame (fun _ => 0) 2 3 [70, 70] [255] 2 [] (by decide)).2 5
      (by omega)

/-! ## Claim C8: the stable-state move -/

/-- A concrete TAP oracle with TMS scan 3 and path length 2 for all pairs. -/
def oracle1 : TapStateOracle := ⟨fun _ _ => 3, fun _ _ => 2, fun st _ => st⟩

/-- TCK rising-edge writes of the bit transport. -/
def isRisingEdge : BbEv → Bool
  | BbEv.w true _ _ => true
  | _ => false

/-- Holds for events that do not drive TDI high. -/
def tdiLow : BbEv → Bool
  | BbEv.w _ _ tdi => !tdi
  | _ => true

theorem tmsPulses_countP (tms_scan : Nat) (idxs : List Nat) :
    (tmsPulses tms_scan idxs).countP isRisingEdge = idxs.length := by
  induction idxs with
  | nil => rfl
  | cons a l ih =>
    simp [tmsPulses, List.countP_cons, isRisingEdge] at ih ⊢
    omega

theorem tmsPulses_tdiLow (tms_scan : Nat) (idxs : List Nat) :
    ∀ e ∈ tmsPulses tms_scan idxs, tdiLow e = true := by
  induction idxs with
  | nil => intro e he; cases he
  | cons a l ih =>
    intro e he
    simp [tmsPulses] at he
    rcases he with h | h | h
    · rw [h]; rfl
    · rw [h]; rfl
    · exact ih e (by simpa [tmsPulses] using h)

/-- C8: moving between stable states A and B with skip 0 ends with the
current state equal to B, issues exactly the oracle-reported TMS path length
of TCK pulses (rising edges), never drives TDI high, and finishes with a
TCK-low write (clock idles low). -/
theorem state_move_stable_spec (o : TapStateOracle) (A B : TapState)
    (hA : tap_is_state_stable A = true) (hB : tap_is_state_stable B = true) :
    (bitbang_state_move o ⟨true, false, A, B⟩ 0).1.cur = B ∧
    ((bitbang_state_move o ⟨true, false, A, B⟩ 0).2.countP isRisingEdge) =
      o.tmsPathLen A B ∧
    (∀ e ∈ (bitbang_state_move o ⟨true, false, A, B⟩ 0).2, tdiLow e = true) ∧
    (bitbang_state_move o ⟨true, false, A, B⟩ 0).2.getLast? =
      some (BbEv.w false (finalTms (o.tmsPath A B) (o.tmsPathLen A B) 0) false) := by
  refine ⟨rfl, ?_, ?_, ?_⟩
  · show ((tmsPulses (o.tmsPath A B) (List.range' 0 (o.tmsPathLen A B - 0)) ++
      [BbEv.w false (finalTms (o.tmsPath A B) (o.tmsPathLen A B) 0) false]).countP
        isRisingEdge) = o.tmsPathLen A B
    rw [List.countP_append, tmsPulses_countP, List.length_range']
    simp [isRisingEdge, List.countP_cons]
  · intro e he
    rcases List.mem_append.mp he with h | h
    · exact tmsPulses_tdiLow _ _ e h
    · simp at h
      rw [h]; rfl
  · exact List.getLast?_concat _

/-- Witness for C8 on the concrete oracle with path length 2, between the
stable states RESET and IDLE. -/
theorem state_move_stable_spec_witness :
    tap_is_state_stable TapState.RESET = true ∧
    tap_is_state_stable TapState.IDLE = true ∧
    (bitbang_state_move oracle1 ⟨true, false, TapState.RESET, TapState.IDLE⟩ 0).1.cur =
      TapState.IDLE ∧
    ((bitbang_state_move oracle1
        ⟨true, false, TapState.RESET, TapState.IDLE⟩ 0).2.countP isRisingEdge) = 2 :=
  ⟨rfl, rfl,
   (state_move_stable_spec oracle1 TapState.RESET TapState.IDLE rfl rfl).1,
   (state_move_stable_spec oracle1 TapState.RESET TapState.IDLE rfl rfl).2.1⟩

/-! ## Claim C5: the per-bit protocol of the shift loop -/

/-- The events the shift loop must emit for bit index i of an N-bit scan, as
the claim words them: a falling-edge write with TMS 1 exactly on the final
bit and TDI taken from the original buffer unless the scan is output-only
(then 0), the TDO sample strictly between the falling and the rising edge
whenever the direction requires input, and the matching rising-edge write. -/
def scanChunk (stype : ScanType) (tdo : Nat → Bool) (buffer0 : Nat → Nat)
    (scan_size i : Nat) : List BbEv :=
  [BbEv.w false (decide (i = scan_size - 1))
     (decide (stype ≠ ScanType.scanIn) && bufBit buffer0 i)] ++
  (if stype ≠ ScanType.scanOut then [BbEv.r (tdo i)] else []) ++
  [BbEv.w true (decide (i = scan_size - 1))
     (decide (stype ≠ ScanType.scanIn) && bufBit buffer0 i)]

theorem scanLoop_succ (stype : ScanType) (tdo : Nat → Bool) (scan_size k n : Nat)
    (buffer : Nat → Nat) :
    scanLoop stype tdo scan_size k (n + 1) buffer =
      ((scanLoop stype tdo scan_size (k + 1) n
          (if stype ≠ ScanType.scanOut then bufSetBit buffer k (tdo k) else buffer)).1,
       ([BbEv.w false (decide (k = scan_size - 1))
           (decide (stype ≠ ScanType.scanIn) && bufBit buffer k)] ++
        (if stype ≠ ScanType.scanOut then [BbEv.r (tdo k)] else []) ++
        [BbEv.w true (decide (k = scan_size - 1))
           (decide (stype ≠ ScanType.scanIn) && bufBit buffer k)]) ++
       (scanLoop stype tdo scan_size (k + 1) n
          (if stype ≠ ScanType.scanOut then bufSetBit buffer k (tdo k) else buffer)).2) :=
  rfl

theorem scanLoop_general (stype : ScanType) (tdo : Nat → Bool) (scan_size : Nat)
    (buffer0 : Nat → Nat) :
    ∀ (n k : Nat) (buffer1 : Nat → Nat),
      (∀ j, k ≤ j → bufBit buffer1 j = bufBit buffer0 j) →
      (scanLoop stype tdo scan_size k n buffer1).2 =
        (List.range' k n).flatMap (scanChunk stype tdo buffer0 scan_size) ∧
      (∀ j, j < k → bufBit (scanLoop stype tdo scan_size k n buffer1).1 j =
        bufBit buffer1 j) ∧
      (∀ i, k ≤ i → i < k + n →
        bufBit (scanLoop stype tdo scan_size k n buffer1).1 i =
          (if stype = ScanType.scanOut then bufBit buffer1 i else tdo i)) := by
  intro n
  induction n with
  | zero =>
    intro k buffer1 hagree
    exact ⟨rfl, fun j _ => rfl, fun i h1 h2 => absurd h2 (by omega)⟩
  | succ n ih =>
    intro k buffer1 hagree
    rw [scanLoop_succ]
    have hagree2 : ∀ j, k + 1 ≤ j →
        bufBit (if stype ≠ ScanType.scanOut then bufSetBit buffer1 k (tdo k) else buffer1) j =
          bufBit buffer0 j := by
      intro j hj
      by_cases hso : stype ≠ ScanType.scanOut
      · rw [if_pos hso, bufBit_bufSetBit_ne _ _ _ _ (by omega)]
        exact hagree j (by omega)
      · rw [if_neg hso]
        exact hagree j (by omega)
    obtain ⟨ht, hlow, hhigh⟩ := ih (k + 1) _ hagree2
    refine ⟨?_, ?_, ?_⟩
    · show _ ++ _ = _
      rw [ht, List.range'_succ]
      have hchunk : scanChunk stype tdo buffer0 scan_size k =
          [BbEv.w false (decide (k = scan_size - 1))
             (decide (stype ≠ ScanType.scanIn) && bufBit buffer1 k)] ++
          (if stype ≠ ScanType.scanOut then [BbEv.r (tdo k)] else []) ++
          [BbEv.w true (decide (k = scan_size - 1))
             (decide (stype ≠ ScanType.scanIn) && bufBit buffer1 k)] := by
        unfold scanChunk
        rw [hagree k (Nat.le_refl k)]
      rw [List.flatMap_cons, hchunk]
    · intro j hj
      rw [hlow j (by omega)]
      by_cases hso : stype ≠ ScanType.scanOut
      · rw [if_pos hso, bufBit_bufSetBit_ne _ _ _ _ (by omega)]
      · rw [if_neg hso]
    · intro i h1 h2
      by_cases hik : i = k
      · subst hik
        rw [hlow i (by omega)]
        by_cases hout : stype = ScanType.scanOut
        · simp [hout]
        · simp [hout, bufBit_bufSetBit_self]
      · rw [hhigh i (by omega) (by omega)]
        by_cases hout : stype = ScanType.scanOut
        · simp [hout]
        · simp [hout]

/-- C5: during an N-bit shift the loop emits, for every bit index i in
[0, N), exactly the falling-write / optional TDO sample / rising-write
triple of scanChunk — TMS 1 only on the final bit, TDI from bit i of the
buffer unless output-only, the sample strictly before the rising edge — and
when the direction requires input the sampled level is written back into the
buffer at the same bit index. -/
theorem scan_shift_bit_protocol (stype : ScanType) (tdo : Nat → Bool)
    (buffer : Nat → Nat) (N : Nat) :
    (scanLoop stype tdo N 0 N buffer).2 =
      (List.range N).flatMap (scanChunk stype tdo buffer N) ∧
    ∀ i, i < N → bufBit ((scanLoop stype tdo N 0 N buffer).1) i =
      (if stype = ScanType.scanOut then bufBit buffer i else tdo i) := by
  have h := scanLoop_general stype tdo N buffer N 0 buffer (fun _ _ => rfl)
  refine ⟨?_, fun i hi => h.2.2 i (Nat.zero_le i) (by omega)⟩
  rw [h.1, List.range_eq_range']

/-- Witness for C5: a 2-bit bidirectional scan of an all-zero buffer with
TDO high only on bit 0. -/
theorem scan_shift_bit_protocol_witness :
    (scanLoop ScanType.scanIO (fun i => decide (i = 0)) 2 0 2 (fun _ => 0)).2 =
      [BbEv.w false false false, BbEv.r true, BbEv.w true false false,
       BbEv.w false true false, BbEv.r false, BbEv.w true true false] ∧
    bufBit ((scanLoop ScanType.scanIO (fun i => decide (i = 0)) 2 0 2 (fun _ => 0)).1) 0 =
      true := by
  constructor
  · exact (scan_shift_bit_protocol ScanType.scanIO (fun i => decide (i = 0))
      (fun _ => 0) 2).1.trans (by decide)
  · exact ((scan_shift_bit_protocol ScanType.scanIO (fun i => decide (i = 0))
      (fun _ => 0) 2).2 0 (by decide)).trans (by decide)

/-! ## Claim C4: WAIT handling and the clear-sticky-errors retry -/

/-- A 38-bit read response word with ACK OK, the given 32-bit data field and
a matching parity bit. -/
def okReadWord (data : Nat) : Nat := 2 + data * 16 + parity_u32 data * 2 ^ 36

/-- The response environment of a read transaction that is acknowledged WAIT
n times (each followed by an OK acknowledge, word 2, for the clear-sticky
abort write) and then acknowledged OK with the given data. -/
def waitEnv (data : Nat) : Nat → List Nat
  | 0 => [okReadWord data]
  | n + 1 => 4 :: 2 :: waitEnv data n

/-- The transport actions of one read-transaction attempt of
bitbang_swd_read_reg against response word w. -/
def readAttemptActs (cmd w : Nat) : List SwdAct :=
  [SwdAct.exchW (cmd ||| SWD_CMD_START ||| 128) 0 8, SwdAct.drive false,
   SwdAct.exchR 0 38 w, SwdAct.drive true]

/-- The transport actions of one clear-sticky-errors abort write acknowledged
OK (response word 2). -/
def clearStickyActs : List SwdAct :=
  [SwdAct.exchW (swd_cmd false false DP_ABORT ||| SWD_CMD_START ||| 128) 0 8,
   SwdAct.drive false, SwdAct.exchR 0 5 2, SwdAct.drive true,
   SwdAct.exchW (SWD_ABORT_CLEAR % 2 ^ 32 + parity_u32 SWD_ABORT_CLEAR * 2 ^ 32) 5 33]

/-- The full action trace of a read transaction seeing n WAIT acknowledges
and then an OK. -/
def waitTrace (cmd data : Nat) : Nat → List SwdAct
  | 0 => readAttemptActs cmd (okReadWord data)
  | n + 1 => readAttemptActs cmd 4 ++ clearStickyActs ++ waitTrace cmd data n

theorem okReadWord_ack (data : Nat) : okReadWord data / 2 % 8 = 1 := by
  have hp := parity_u32_lt data
  unfold okReadWord
  have h36 : (2 : Nat) ^ 36 = 68719476736 := by norm_num
  rw [h36]
  omega

theorem okReadWord_data (data : Nat) (hdata : data < 2 ^ 32) :
    okReadWord data / 16 % 4294967296 = data := by
  have hp := parity_u32_lt data
  unfold okReadWord
  have h36 : (2 : Nat) ^ 36 = 68719476736 := by norm_num
  have h32 : (2 : Nat) ^ 32 = 4294967296 := by norm_num
  rw [h36]
  rw [h32] at hdata
  omega

theorem okReadWord_parity (data : Nat) (hdata : data < 2 ^ 32) :
    okReadWord data / 68719476736 % 2 = parity_u32 data := by
  have hp := parity_u32_lt data
  unfold okReadWord
  have h36 : (2 : Nat) ^ 36 = 68719476736 := by norm_num
  have h32 : (2 : Nat) ^ 32 = 4294967296 := by norm_num
  rw [h36]
  rw [h32] at hdata
  omega

theorem clear_sticky_ok (fuel : Nat) (s : SwdState) (rest : List Nat)
    (hq : s.queued_retval = ERROR_OK) :
    swd_clear_sticky_errors (fuel + 1) s (2 :: rest) = some (s, clearStickyActs, rest) := by
  have hdp : swd_cmd false false DP_ABORT &&& SWD_CMD_APnDP = 0 := by decide
  simp [swd_clear_sticky_errors, bitbang_swd_write_reg, hq, writeRegLoop, hdp,
    clearStickyActs, SWD_ACK_OK]

theorem readLoop_waitEnv (cmd ap data : Nat) (hdp : cmd &&& SWD_CMD_APnDP = 0)
    (hdata : data < 2 ^ 32) :
    ∀ (n : Nat) (s : SwdState), s.queued_retval = ERROR_OK →
      readRegLoop (n + 1) s cmd ap (waitEnv data n) =
        some (s, some data, waitTrace cmd data n, []) := by
  intro n
  induction n with
  | zero =>
    intro s hq
    show readRegLoop (0 + 1) s cmd ap [okReadWord data] = _
    simp [readRegLoop, SWD_ACK_OK, okReadWord_ack, okReadWord_data data hdata,
      okReadWord_parity data hdata, hdp, waitTrace, readAttemptActs]
  | succ n ih =>
    intro s hq
    show readRegLoop ((n + 1) + 1) s cmd ap (4 :: 2 :: waitEnv data n) = _
    simp only [readRegLoop]
    rw [clear_sticky_ok n s (waitEnv data n) hq]
    simp only [SWD_ACK_OK, SWD_ACK_WAIT, SWD_ACK_FAULT]
    norm_num
    rw [ih s hq]
    simp [waitTrace, readAttemptActs]

theorem countAbortWrites_append (x y : List SwdAct) :
    countAbortWrites (x ++ y) = countAbortWrites x + countAbortWrites y := by
  unfold countAbortWrites
  exact List.countP_append _ x y

theorem countReadAttempts_append (x y : List SwdAct) :
    countReadAttempts (x ++ y) = countReadAttempts x + countReadAttempts y := by
  unfold countReadAttempts
  exact List.countP_append _ x y

theorem countAbortWrites_attempt (cmd w : Nat) (hrnw : cmd &&& SWD_CMD_RnW ≠ 0) :
    countAbortWrites (readAttemptActs cmd w) = 0 := by
  have habort : swd_cmd false false DP_ABORT ||| SWD_CMD_START ||| 128 = 129 := by decide
  have hbit : cmd.testBit 2 = true := by
    by_contra hc
    have hfalse : cmd.testBit 2 = false := by
      cases h : cmd.testBit 2
      · rfl
      · exact absurd h hc
    have h0 := Nat.and_two_pow cmd 2
    rw [hfalse] at h0
    simp at h0
    exact hrnw (by simpa [SWD_CMD_RnW] using h0)
  have hne : ¬(cmd ||| SWD_CMD_START ||| 128 =
      swd_cmd false false DP_ABORT ||| SWD_CMD_START ||| 128) := by
    rw [habort]
    intro he
    have h2 : (cmd ||| SWD_CMD_START ||| 128).testBit 2 = (129 : Nat).testBit 2 := by
      rw [he]
    simp [Nat.testBit_or, hbit, SWD_CMD_START] at h2
    exact absurd h2 (by decide)
  simp [countAbortWrites, readAttemptActs, List.countP_cons, hne]

theorem countAbortWrites_clear : countAbortWrites clearStickyActs = 1 := by decide

theorem countReadAttempts_attempt (cmd w : Nat) :
    countReadAttempts (readAttemptActs cmd w) = 1 := rfl

theorem countReadAttempts_clear : countReadAttempts clearStickyActs = 0 := by decide

theorem waitTrace_counts (cmd data : Nat) (hrnw : cmd &&& SWD_CMD_RnW ≠ 0) :
    ∀ n, countAbortWrites (waitTrace cmd data n) = n ∧
      countReadAttempts (waitTrace cmd data n) = n + 1 := by
  intro n
  induction n with
  | zero =>
    exact ⟨countAbortWrites_attempt cmd _ hrnw, countReadAttempts_attempt cmd _⟩
  | succ n ih =>
    constructor
    · show countAbortWrites (readAttemptActs cmd 4 ++ clearStickyActs ++ waitTrace cmd data n) = _
      rw [countAbortWrites_append, countAbortWrites_append,
        countAbortWrites_attempt cmd _ hrnw, countAbortWrites_clear, ih.1]
      omega
    · show countReadAttempts (readAttemptActs cmd 4 ++ clearStickyActs ++ waitTrace cmd data n) = _
      rw [countReadAttempts_append, countReadAttempts_append,
        countReadAttempts_attempt cmd _, countReadAttempts_clear, ih.2]
      omega

/-- C4: a read transaction whose attempts are acknowledged WAIT n times and
then OK performs exactly one clear-sticky-errors abort write per WAIT (n in
total), makes exactly n + 1 read attempts (one final successful transaction),
completes storing the data word, leaves the error latch clear, and consumes
the response environment exactly; the quantification over n reflects the
unbounded retry. -/
theorem swd_wait_retry_protocol (cmd ap data n : Nat) (s : SwdState)
    (hq : s.queued_retval = ERROR_OK) (hrnw : cmd &&& SWD_CMD_RnW ≠ 0)
    (hdp : cmd &&& SWD_CMD_APnDP = 0) (hdata : data < 2 ^ 32) :
    bitbang_swd_read_reg (n + 1) s cmd ap (waitEnv data n) =
      some (s, some data, waitTrace cmd data n, []) ∧
    countAbortWrites (waitTrace cmd data n) = n ∧
    countReadAttempts (waitTrace cmd data n) = n + 1 := by
  refine ⟨?_, (waitTrace_counts cmd data hrnw n).1, (waitTrace_counts cmd data hrnw n).2⟩
  unfold bitbang_swd_read_reg
  rw [if_neg (by simp [hq])]
  exact readLoop_waitEnv cmd ap data hdp hdata n s hq

/-- Witness for C4 at the ACK sequence WAIT, WAIT, OK: exactly two
clear-sticky writes and three attempts, of which the last one completes. -/
theorem swd_wait_retry_protocol_witness :
    bitbang_swd_read_reg 3 ⟨ERROR_OK, true⟩ 4 0 (waitEnv 0 2) =
      some (⟨ERROR_OK, true⟩, some 0, waitTrace 4 0 2, []) ∧
    countAbortWrites (waitTrace 4 0 2) = 2 ∧
    countReadAttempts (waitTrace 4 0 2) = 3 :=
  swd_wait_retry_protocol 4 0 0 2 ⟨ERROR_OK, true⟩ rfl (by decide) (by decide) (by decide)

/-! ## Claim C1: aggregate status of the drained queue -/

/-- A 1-bit output-only DR scan whose external read-buffer validation
reports a failure, queued while the TAP already sits in DRSHIFT. -/
def scanFailCmd : JtagCommand :=
  JtagCommand.scan false ScanType.scanOut TapState.DRSHIFT (fun _ => 0) 1
    (fun _ => false) false

/-- A 1-bit raw-TMS command. -/
def rawTmsCmd : JtagCommand := JtagCommand.tms (fun _ => 0) 1

/-- Initial driver state for the C1 evaluation: interface initialized, TAP
parked in DRSHIFT. -/
def jtagS0 : JtagState := ⟨true, false, TapState.DRSHIFT, TapState.DRSHIFT⟩

/-- C1 (evaluating the code at the failing input): a queue consisting of a
ScanShift whose validation fails returns the queue-failed status, but the
same failing ScanShift followed by a RawTms command returns ERROR_OK — the
RawTms dispatch overwrites the accumulated failure with the always-OK result
of bitbang_execute_tms, contradicting the executor's own stated contract. -/
theorem queue_failed_lost_after_raw_tms :
    (bitbang_execute_queue oracle0 jtagS0 [scanFailCmd]).map (fun p => p.1) =
      some ERROR_JTAG_QUEUE_FAILED ∧
    (bitbang_execute_queue oracle0 jtagS0 [scanFailCmd, rawTmsCmd]).map (fun p => p.1) =
      some ERROR_OK := by
  constructor
  · rfl
  · rfl
